import Mathlib

/-!
# Verification of the GSN Connector token authentication service

Shallow embedding of `src/gsn-auth.ts` (class `GSNAuth`). JavaScript strings
are modelled as `List Char`; millisecond timestamps as `Int`; `Date.now()` is
an explicit `now` parameter. `Map<string, AuthToken>` becomes an association
list with first-match lookup, `Set<string>` a duplicate-free list. Node
stdlib primitives (HMAC-SHA256, base64url/JSON encode and decode) are opaque
to the source, so they are parameters gathered in `CryptoEnv`; a JSON decode
may throw, which is modelled by `Except`. JavaScript runtime objects parsed
from JSON may lack fields, so parsed payload fields (and the fields of a
credential returned by validation) are `Option`-typed, with `none` standing
for `undefined`; the JS comparison `x < undefined` evaluates to `false`,
captured by `jsLt`/`jsGt`.
-/

set_option autoImplicit false

namespace GSN

/-- JavaScript strings, modelled as lists of characters. -/
abbrev Str := List Char

/-- Token scope: `'read' | 'write' | 'admin'`. -/
inductive Scope where
  | read
  | write
  | admin
deriving DecidableEq, Repr

/-- The scope's runtime string value. -/
def scopeToStr : Scope → Str
  | .read => "read".data
  | .write => "write".data
  | .admin => "admin".data

/-- `AgentIdentity` from `types.ts` (capabilities omitted: never read by GSNAuth). -/
structure AgentIdentity where
  id : Str
  name : Str
  agentType : Str
  version : Str
deriving DecidableEq, Repr

/-- Runtime `AuthToken` object. `generateToken` fills every field; the foreign
verification path copies fields straight out of parsed JSON, so at runtime each
field may be `undefined` (`none`). -/
structure AuthToken where
  token : Str
  agentId : Option Str
  issuedAt : Option Int
  expiresAt : Option Int
  scope : Option Str
deriving DecidableEq, Repr

/-- The result of `JSON.parse` on a decoded payload, projected onto the four
fields the code reads. A missing field is `none` (JS `undefined`). -/
structure PayloadData where
  agentId : Option Str
  scope : Option Str
  issuedAt : Option Int
  expiresAt : Option Int
deriving DecidableEq, Repr

/-- The `tokenData` object that `generateToken` serializes (all fields present). -/
structure TokenFields where
  agentId : Str
  scope : Str
  issuedAt : Int
  expiresAt : Int
deriving DecidableEq, Repr

/-- The payload fields as `JSON.parse` would return them after a round-trip. -/
def TokenFields.toPayloadData (f : TokenFields) : PayloadData :=
  ⟨some f.agentId, some f.scope, some f.issuedAt, some f.expiresAt⟩

/-- Node stdlib primitives used by `gsn-auth.ts`, opaque to the source:
`createHmac('sha256', secret).update(payload).digest('base64url')`,
`Buffer.from(JSON.stringify(fields)).toString('base64url')`, and
`JSON.parse(Buffer.from(payload, 'base64url').toString())` (which may throw,
hence `Except`). -/
structure CryptoEnv where
  hmacBase64url : Str → Str → Str
  encodePayload : TokenFields → Str
  decodePayload : Str → Except Unit PayloadData

/-- `Map.get`: first entry with the given key. -/
def mapGet (k : Str) : List (Str × AuthToken) → Option AuthToken
  | [] => none
  | (k', v) :: rest => if k' = k then some v else mapGet k rest

/-- `Map.set`: replace the entry for the key if present, else append. -/
def mapSet (k : Str) (v : AuthToken) : List (Str × AuthToken) → List (Str × AuthToken)
  | [] => [(k, v)]
  | (k', v') :: rest => if k' = k then (k, v) :: rest else (k', v') :: mapSet k v rest

/-- `Map.delete`: remove every entry with the given key (a `Map` holds at most one). -/
def mapDelete (k : Str) : List (Str × AuthToken) → List (Str × AuthToken)
  | [] => []
  | (k', v) :: rest => if k' = k then mapDelete k rest else (k', v) :: mapDelete k rest

/-- `Set.add`: insert the string if it is not already a member. -/
def setAdd (s : Str) (xs : List Str) : List Str :=
  if s ∈ xs then xs else xs ++ [s]

/-- The mutable state of one `GSNAuth` instance. -/
structure GSNAuthState where
  agentIdentity : AgentIdentity
  secretKey : Str
  tokenExpiry : Int
  allowedAgents : List Str
  issuedTokens : List (Str × AuthToken)
  revokedTokens : List Str
deriving DecidableEq, Repr

/-- The constructor, with `options.secretKey || uuidv4()` and the defaults
already resolved by the caller. Both caches start empty. -/
def mkGSNAuth (identity : AgentIdentity) (secretKey : Str) (tokenExpiry : Int)
    (allowedAgents : List Str) : GSNAuthState :=
  { agentIdentity := identity
    secretKey := secretKey
    tokenExpiry := tokenExpiry
    allowedAgents := allowedAgents
    issuedTokens := []
    revokedTokens := [] }

/-- JS `a < b` where `b` may be `undefined`: comparing with `undefined` is `false`. -/
def jsLt (a : Int) : Option Int → Bool
  | some b => decide (a < b)
  | none => false

/-- JS `a > b` where `b` may be `undefined`: comparing with `undefined` is `false`. -/
def jsGt (a : Int) : Option Int → Bool
  | some b => decide (a > b)
  | none => false

/-- `isTokenExpired`: `now < token.issuedAt || now > token.expiresAt`, under JS
semantics when a timestamp is `undefined`. -/
def isTokenExpired (now : Int) (issuedAt expiresAt : Option Int) : Bool :=
  jsLt now issuedAt || jsGt now expiresAt

/-- `signPayload`: HMAC-SHA256 of the payload under the secret, base64url digest. -/
def signPayload (env : CryptoEnv) (secretKey payload : Str) : Str :=
  env.hmacBase64url secretKey payload

/-- The accumulator loop of `verifyPayload`:
`result |= expected.charCodeAt(i) ^ signature.charCodeAt(i)` over all `i`. -/
def xorAccum : Str → Str → Nat
  | [], _ => 0
  | _ :: _, [] => 0
  | a :: as, b :: bs => (a.toNat ^^^ b.toNat) ||| xorAccum as bs

/-- `verifyPayload`: recompute the signature and compare in constant time
(length check, then OR of character XORs; true iff the accumulator is zero). -/
def verifyPayload (env : CryptoEnv) (secretKey payload signature : Str) : Bool :=
  let expected := signPayload env secretKey payload
  if expected.length ≠ signature.length then false
  else decide (xorAccum expected signature = 0)

/-- JS `tokenString.split('.')`. -/
def splitOnDot : Str → List Str
  | [] => [[]]
  | c :: rest =>
    if c = '.' then [] :: splitOnDot rest
    else
      match splitOnDot rest with
      | [] => [[c]]
      | s :: ss => (c :: s) :: ss

/-- The `tokenData` object built by `generateToken` at clock value `now`:
`issuedAt = Date.now()`, `expiresAt = Date.now() + tokenExpiry * 1000`. -/
def mintFields (now : Int) (st : GSNAuthState) (scope : Scope) : TokenFields :=
  { agentId := st.agentIdentity.id
    scope := scopeToStr scope
    issuedAt := now
    expiresAt := now + st.tokenExpiry * 1000 }

/-- `generateToken(scope)`: build the token data at `now`, serialize and sign it,
record the credential in `issuedTokens`, return it with the new state. -/
def generateToken (env : CryptoEnv) (now : Int) (st : GSNAuthState) (scope : Scope) :
    AuthToken × GSNAuthState :=
  let tokenData : TokenFields := mintFields now st scope
  let payload := env.encodePayload tokenData
  let signature := signPayload env st.secretKey payload
  let tokenString := payload ++ '.' :: signature
  let token : AuthToken :=
    { token := tokenString
      agentId := some st.agentIdentity.id
      issuedAt := some tokenData.issuedAt
      expiresAt := some tokenData.expiresAt
      scope := some (scopeToStr scope) }
  (token, { st with issuedTokens := mapSet tokenString token st.issuedTokens })

/-- The body of `validateToken`'s `try` block on the foreign-token path:
verify the signature, decode the payload (which may throw), check expiry,
rebuild the credential. An `Except.error` is a thrown decode fault. -/
def foreignBody (env : CryptoEnv) (now : Int) (st : GSNAuthState)
    (tokenString payload signature : Str) : Except Unit (Option AuthToken) :=
  if !verifyPayload env st.secretKey payload signature then
    .ok none
  else
    match env.decodePayload payload with
    | .error e => .error e
    | .ok tokenData =>
      if isTokenExpired now tokenData.issuedAt tokenData.expiresAt then
        .ok none
      else
        .ok (some
          { token := tokenString
            agentId := tokenData.agentId
            issuedAt := tokenData.issuedAt
            expiresAt := tokenData.expiresAt
            scope := tokenData.scope })

/-- `validateToken(tokenString)`: revocation check, issued-cache check, then the
foreign path (`split('.')`, signature, decode, expiry) with its `catch` turning
any thrown fault into `null`. The method writes no field of the receiver, so
every exit returns the value paired with the unchanged state. -/
def validateToken (env : CryptoEnv) (now : Int) (st : GSNAuthState) (tokenString : Str) :
    Option AuthToken × GSNAuthState :=
  if tokenString ∈ st.revokedTokens then (none, st)
  else
    match mapGet tokenString st.issuedTokens with
    | some existingToken =>
        if isTokenExpired now existingToken.issuedAt existingToken.expiresAt then (none, st)
        else (some existingToken, st)
    | none =>
        match splitOnDot tokenString with
        | [payload, signature] =>
            match foreignBody env now st tokenString payload signature with
            | .error _ => (none, st)
            | .ok r => (r, st)
        | _ => (none, st)

/-- `revokeToken(tokenString)`: delete from `issuedTokens`, add to
`revokedTokens`, return `true`. -/
def revokeToken (st : GSNAuthState) (tokenString : Str) : Bool × GSNAuthState :=
  (true,
    { st with
      issuedTokens := mapDelete tokenString st.issuedTokens
      revokedTokens := setAdd tokenString st.revokedTokens })

/-- `isAgentAllowed(agentId)`: empty allow-list means no restriction, else
membership or the wildcard. -/
def isAgentAllowed (st : GSNAuthState) (agentId : Str) : Bool :=
  if st.allowedAgents.length = 0 then true
  else decide (agentId ∈ st.allowedAgents) || decide ("*".data ∈ st.allowedAgents)

/-- `dispose()`: clear both caches. -/
def dispose (st : GSNAuthState) : GSNAuthState :=
  { st with issuedTokens := [], revokedTokens := [] }

/-- The token data produced by an authority with agent id `"a"` and
`tokenExpiry = 1` second issuing a `read` token at `now = 0`. -/
def fields0 : TokenFields :=
  { agentId := ['a'], scope := "read".data, issuedAt := 0, expiresAt := 1000 }

/-- A concrete instantiation of the stdlib primitives, used to evaluate the
theorems on concrete inputs: a toy keyed MAC (secret prepended to the payload),
a payload encoding producing the dot-free string `"p"`, and a decode table:
`"p"` decodes to `fields0`'s payload, `"q"` to a JSON object with none of the
required fields, anything else throws. -/
def env0 : CryptoEnv :=
  { hmacBase64url := fun secret payload => secret ++ payload
    encodePayload := fun _ => ['p']
    decodePayload := fun s =>
      if s = ['p'] then .ok fields0.toPayloadData
      else if s = ['q'] then .ok ⟨none, none, none, none⟩
      else .error () }

/-- A concrete agent identity. -/
def identity0 : AgentIdentity :=
  { id := ['a'], name := ['a'], agentType := "agent".data, version := ['1'] }

/-- A freshly constructed authority: secret `"k"`, expiry 1 second, no allow-list. -/
def st0 : GSNAuthState := mkGSNAuth identity0 ['k'] 1 []

/-- A second fresh authority sharing `st0`'s secret (for foreign verification). -/
def stB : GSNAuthState := mkGSNAuth identity0 ['k'] 1 []

/-- A fresh authority with a different secret `"c"`. -/
def stC : GSNAuthState := mkGSNAuth identity0 ['c'] 1 []

/-! ## Helper lemmas -/

theorem nat_or_eq_zero_iff (a b : Nat) : a ||| b = 0 ↔ a = 0 ∧ b = 0 := by
  constructor
  · intro h
    have h' : ∀ i, Nat.testBit (a ||| b) i = Nat.testBit 0 i := fun i => by rw [h]
    simp only [Nat.testBit_lor, Nat.zero_testBit, Bool.or_eq_false_iff] at h'
    constructor
    · exact Nat.eq_of_testBit_eq fun i => by simp [(h' i).1, Nat.zero_testBit]
    · exact Nat.eq_of_testBit_eq fun i => by simp [(h' i).2, Nat.zero_testBit]
  · rintro ⟨rfl, rfl⟩; rfl

theorem char_toNat_inj {a b : Char} (h : a.toNat = b.toNat) : a = b :=
  Char.eq_of_val_eq (UInt32.toNat.inj h)

theorem xorAccum_eq_zero_iff (a b : Str) (h : a.length = b.length) :
    xorAccum a b = 0 ↔ a = b := by
  induction a generalizing b with
  | nil =>
    cases b with
    | nil => simp [xorAccum]
    | cons y ys => simp at h
  | cons x xs ih =>
    cases b with
    | nil => simp at h
    | cons y ys =>
      simp only [List.length_cons, Nat.add_right_cancel_iff] at h
      simp only [xorAccum, nat_or_eq_zero_iff, Nat.xor_eq_zero, ih ys h]
      constructor
      · rintro ⟨h1, rfl⟩
        rw [char_toNat_inj h1]
      · rintro he
        injection he with he1 he2
        exact ⟨by rw [he1], he2⟩

theorem verifyPayload_eq_true_iff (env : CryptoEnv) (sk p s : Str) :
    verifyPayload env sk p s = true ↔ s = signPayload env sk p := by
  unfold verifyPayload
  by_cases hl : (signPayload env sk p).length = s.length
  · simp only [hl, ne_eq, not_true_eq_false, if_false, decide_eq_true_eq]
    rw [xorAccum_eq_zero_iff _ _ hl]
    exact eq_comm
  · simp only [ne_eq, hl, not_false_eq_true, if_true]
    constructor
    · intro h; exact absurd h (by simp)
    · intro h; exact absurd h.symm (fun e => hl (by rw [e]))

theorem mapGet_mapSet_self (k : Str) (v : AuthToken) (m : List (Str × AuthToken)) :
    mapGet k (mapSet k v m) = some v := by
  induction m with
  | nil => simp [mapSet, mapGet]
  | cons p rest ih =>
    obtain ⟨k', v'⟩ := p
    by_cases h : k' = k
    · simp [mapSet, h, mapGet]
    · simp [mapSet, h, mapGet, ih]

theorem mapGet_mapDelete_self (k : Str) (m : List (Str × AuthToken)) :
    mapGet k (mapDelete k m) = none := by
  induction m with
  | nil => simp [mapDelete, mapGet]
  | cons p rest ih =>
    obtain ⟨k', v'⟩ := p
    by_cases h : k' = k
    · simp [mapDelete, h, ih]
    · simp [mapDelete, h, mapGet, ih]

theorem mem_setAdd_self (s : Str) (xs : List Str) : s ∈ setAdd s xs := by
  unfold setAdd
  by_cases h : s ∈ xs <;> simp [h]

theorem splitOnDot_ne_nil (a : Str) : splitOnDot a ≠ [] := by
  cases a with
  | nil => simp [splitOnDot]
  | cons c cs =>
    by_cases hc : c = '.'
    · simp [splitOnDot, hc]
    · simp only [splitOnDot, hc, if_false]
      cases splitOnDot cs <;> simp

theorem splitOnDot_no_dot (a : Str) (h : '.' ∉ a) : splitOnDot a = [a] := by
  induction a with
  | nil => rfl
  | cons c cs ih =>
    have hc : ¬(c = '.') := fun e => h (by simp [e])
    have h' : '.' ∉ cs := fun m => h (List.mem_cons_of_mem _ m)
    simp [splitOnDot, hc, ih h']

theorem splitOnDot_append (a b : Str) (h : '.' ∉ a) :
    splitOnDot (a ++ '.' :: b) = a :: splitOnDot b := by
  induction a with
  | nil => simp [splitOnDot]
  | cons c cs ih =>
    have hc : ¬(c = '.') := fun e => h (by simp [e])
    have h' : '.' ∉ cs := fun m => h (List.mem_cons_of_mem _ m)
    simp only [List.cons_append, splitOnDot, hc, if_false, List.append_eq, ih h']

theorem two_le_splitOnDot_length (b : Str) (h : '.' ∈ b) :
    2 ≤ (splitOnDot b).length := by
  induction b with
  | nil => simp at h
  | cons c cs ih =>
    by_cases hc : c = '.'
    · subst hc
      simp only [splitOnDot, if_true]
      have h1 := splitOnDot_ne_nil cs
      cases he : splitOnDot cs with
      | nil => exact absurd he h1
      | cons s ss => simp only [List.length_cons]; omega
    · have h' : '.' ∈ cs := by
        rcases List.mem_cons.mp h with h1 | h1
        · exact absurd h1.symm hc
        · exact h1
      have := ih h'
      simp only [splitOnDot, hc, if_false]
      cases he : splitOnDot cs with
      | nil => rw [he] at this; simp at this
      | cons s ss => rw [he] at this; simp only [List.length_cons] at this ⊢; omega

theorem validateToken_cached (env : CryptoEnv) (now : Int) (st : GSNAuthState)
    (s : Str) (tok : AuthToken)
    (hrev : s ∉ st.revokedTokens) (hcache : mapGet s st.issuedTokens = some tok)
    (hexp : isTokenExpired now tok.issuedAt tok.expiresAt = false) :
    (validateToken env now st s).1 = some tok := by
  simp [validateToken, hrev, hcache, hexp]

theorem validateToken_foreign_path (env : CryptoEnv) (now : Int) (st : GSNAuthState)
    (s payload signature : Str)
    (hrev : s ∉ st.revokedTokens) (hcache : mapGet s st.issuedTokens = none)
    (hsplit : splitOnDot s = [payload, signature]) :
    (validateToken env now st s).1 =
      match foreignBody env now st s payload signature with
      | .error _ => none
      | .ok r => r := by
  simp only [validateToken, hrev, if_false, hcache, hsplit]
  cases foreignBody env now st s payload signature <;> rfl

/-! ## Claims -/

/-- C2: for every bearer string and every authority state, `revokeToken` removes
the string from `issuedTokens`, adds it to `revokedTokens`, and returns `true` —
including when the string was already revoked or never issued — and every
subsequent `validateToken` of that string on the resulting state returns `null`
at every clock value (the revocation check precedes every other check). -/
theorem revoke_always_succeeds_and_blocks (env : CryptoEnv) (st : GSNAuthState) (s : Str) :
    (revokeToken st s).1 = true ∧
    mapGet s (revokeToken st s).2.issuedTokens = none ∧
    s ∈ (revokeToken st s).2.revokedTokens ∧
    (∀ now : Int, (validateToken env now (revokeToken st s).2 s).1 = none) := by
  refine ⟨rfl, mapGet_mapDelete_self s _, mem_setAdd_self s _, fun now => ?_⟩
  have hmem : s ∈ (revokeToken st s).2.revokedTokens := mem_setAdd_self s _
  simp [validateToken, hmem]

/-- C9: `validateToken` leaves the authority's state completely unchanged —
`issuedTokens`, `revokedTokens`, `secretKey`, `tokenExpiry` and `allowedAgents`
are identical before and after the call, whether validation succeeds or fails;
in particular a successfully verified foreign token is never inserted into the
issued-token cache. -/
theorem validateToken_state_unchanged (env : CryptoEnv) (now : Int) (st : GSNAuthState)
    (s : Str) :
    (validateToken env now st s).2 = st ∧
    (validateToken env now st s).2.issuedTokens = st.issuedTokens ∧
    (validateToken env now st s).2.revokedTokens = st.revokedTokens ∧
    (validateToken env now st s).2.secretKey = st.secretKey ∧
    (validateToken env now st s).2.tokenExpiry = st.tokenExpiry ∧
    (validateToken env now st s).2.allowedAgents = st.allowedAgents := by
  have h2 : (validateToken env now st s).2 = st := by
    unfold validateToken
    split
    · rfl
    · split
      · split <;> rfl
      · split
        · split <;> rfl
        · rfl
  exact ⟨h2, by rw [h2], by rw [h2], by rw [h2], by rw [h2], by rw [h2]⟩

/-- C8 counterexample: two `generateToken` calls on the same authority with the
same scope at the same clock instant (`Date.now() = 0` for both) produce the
SAME bearer string — the claim that any two issue calls yield distinct tokens
is false at this input. -/
theorem generateToken_same_instant_collision :
    (generateToken env0 0 (generateToken env0 0 st0 .read).2 .read).1.token =
      (generateToken env0 0 st0 .read).1.token := by
  rfl

/-- C8 amended: the bearer string is a deterministic function of the agent id,
scope, timestamps, expiry and secret; two `generateToken` calls with the same
scope that observe the same `Date.now()` value produce the identical bearer
string (tokens are distinct only when their timestamps or scope differ). -/
theorem generateToken_deterministic (env : CryptoEnv) (now : Int) (st : GSNAuthState)
    (scope : Scope) :
    (generateToken env now (generateToken env now st scope).2 scope).1.token =
      (generateToken env now st scope).1.token ∧
    (generateToken env now (generateToken env now st scope).2 scope).1 =
      (generateToken env now st scope).1 := by
  exact ⟨rfl, rfl⟩

/-- C1: for every scope in {read, write, admin}, a token freshly issued by
`generateToken(scope)` validates successfully when passed to `validateToken` on
the same authority at the same clock instant (given a nonnegative expiry and
that the minted string was not previously blacklisted via `revokeToken`), and
the returned credential's `agentId`, `scope`, `issuedAt` and `expiresAt` equal
the issuing authority's agent id, the requested scope, and the timestamps
computed at issuance. -/
theorem issued_token_round_trip (env : CryptoEnv) (now : Int) (st : GSNAuthState)
    (scope : Scope)
    (hexp : 0 ≤ st.tokenExpiry)
    (hrev : (generateToken env now st scope).1.token ∉ st.revokedTokens) :
    (validateToken env now (generateToken env now st scope).2
        (generateToken env now st scope).1.token).1 =
      some (generateToken env now st scope).1 ∧
    (generateToken env now st scope).1.agentId = some st.agentIdentity.id ∧
    (generateToken env now st scope).1.scope = some (scopeToStr scope) ∧
    (generateToken env now st scope).1.issuedAt = some now ∧
    (generateToken env now st scope).1.expiresAt = some (now + st.tokenExpiry * 1000) := by
  refine ⟨?_, rfl, rfl, rfl, rfl⟩
  apply validateToken_cached
  · exact hrev
  · exact mapGet_mapSet_self _ _ _
  · show isTokenExpired now (some now) (some (now + st.tokenExpiry * 1000)) = false
    simp only [isTokenExpired, jsLt, jsGt, Bool.or_eq_false_iff, decide_eq_false_iff_not]
    omega

/-- C1 witness: a fresh authority with secret `"k"` and expiry 1s issues a read
token at `now = 0`; validating it at `now = 0` returns the minted credential. -/
theorem issued_token_round_trip_witness :
    (0 : Int) ≤ st0.tokenExpiry ∧
    (generateToken env0 0 st0 .read).1.token ∉ st0.revokedTokens ∧
    (validateToken env0 0 (generateToken env0 0 st0 .read).2
        (generateToken env0 0 st0 .read).1.token).1 =
      some (generateToken env0 0 st0 .read).1 :=
  ⟨by decide, by decide, (issued_token_round_trip env0 0 st0 .read (by decide) (by decide)).1⟩

/-- C4: for a cached, unrevoked token whose timestamps satisfy
`issuedAt < expiresAt`, `validateToken` rejects exactly when the clock is
outside the closed interval `[issuedAt, expiresAt]`: at `now = expiresAt` the
token is still accepted (inclusive upper bound), at `now = expiresAt + 1` it is
rejected, and at `now = issuedAt - 1` (not yet valid) it is rejected. -/
theorem expiry_boundary (env : CryptoEnv) (st : GSNAuthState) (s : Str) (tok : AuthToken)
    (ia ea : Int)
    (hrev : s ∉ st.revokedTokens) (hcache : mapGet s st.issuedTokens = some tok)
    (hia : tok.issuedAt = some ia) (hea : tok.expiresAt = some ea) (hlt : ia < ea) :
    (∀ now : Int, (validateToken env now st s).1 = none ↔ (now < ia ∨ ea < now)) ∧
    (validateToken env ea st s).1 = some tok ∧
    (validateToken env (ea + 1) st s).1 = none ∧
    (validateToken env (ia - 1) st s).1 = none := by
  have base : ∀ now : Int, (validateToken env now st s).1 =
      if now < ia ∨ ea < now then none else some tok := by
    intro now
    simp only [validateToken, if_neg hrev, hcache]
    have hcond : isTokenExpired now tok.issuedAt tok.expiresAt =
        decide (now < ia ∨ ea < now) := by
      by_cases h1 : now < ia <;> by_cases h2 : ea < now <;>
        simp [isTokenExpired, jsLt, jsGt, hia, hea, h1, h2]
    rw [hcond]
    by_cases h : now < ia ∨ ea < now
    · simp [h]
    · simp [h]
  refine ⟨fun now => by rw [base now]; by_cases h : now < ia ∨ ea < now <;> simp [h],
    ?_, ?_, ?_⟩
  · rw [base ea]
    have h : ¬(ea < ia ∨ ea < ea) := by omega
    rw [if_neg h]
  · rw [base (ea + 1)]
    have h : ea + 1 < ia ∨ ea < ea + 1 := by omega
    rw [if_pos h]
  · rw [base (ia - 1)]
    have h : ia - 1 < ia ∨ ea < ia - 1 := by omega
    rw [if_pos h]

/-- C4 witness: the read token issued at `now = 0` with a 1-second expiry is
accepted at `now = 1000` (its `expiresAt`), rejected at `now = 1001`, and
rejected at `now = -1`. -/
theorem expiry_boundary_witness :
    (validateToken env0 1000 (generateToken env0 0 st0 .read).2
        (generateToken env0 0 st0 .read).1.token).1 =
      some (generateToken env0 0 st0 .read).1 ∧
    (validateToken env0 (1000 + 1) (generateToken env0 0 st0 .read).2
        (generateToken env0 0 st0 .read).1.token).1 = none ∧
    (validateToken env0 (0 - 1) (generateToken env0 0 st0 .read).2
        (generateToken env0 0 st0 .read).1.token).1 = none := by
  have h := expiry_boundary env0 (generateToken env0 0 st0 .read).2
    (generateToken env0 0 st0 .read).1.token (generateToken env0 0 st0 .read).1
    0 1000 (by decide) (by decide) (by decide) (by decide) (by decide)
  exact ⟨h.2.1, h.2.2.1, h.2.2.2⟩

/-- C3: signature verification returns true exactly when the supplied signature
string equals the recomputed HMAC of the payload (equal length and zero XOR
accumulator); consequently, for a valid bearer string whose single-character
modification is not cached in `issuedTokens`, changing any single character of
its signature portion makes `validateToken` return `null`. -/
theorem tamper_detection (env : CryptoEnv) (now : Int) (st : GSNAuthState)
    (payload sig : Str) (i : Nat) (c : Char)
    (hsig : sig = signPayload env st.secretKey payload)
    (hpd : '.' ∉ payload) (hsd : '.' ∉ sig)
    (hi : i < sig.length) (hc : c ≠ sig.get ⟨i, hi⟩)
    (hcache : mapGet (payload ++ '.' :: sig.set i c) st.issuedTokens = none) :
    (∀ s' : Str, verifyPayload env st.secretKey payload s' = true ↔
        s' = signPayload env st.secretKey payload) ∧
    (validateToken env now st (payload ++ '.' :: sig.set i c)).1 = none := by
  refine ⟨fun s' => verifyPayload_eq_true_iff env st.secretKey payload s', ?_⟩
  by_cases hrev : (payload ++ '.' :: sig.set i c) ∈ st.revokedTokens
  · simp [validateToken, hrev]
  · by_cases hdot : c = '.'
    · subst hdot
      have hmem : '.' ∈ sig.set i '.' :=
        List.getElem?_mem (List.getElem?_set_self hi)
      have hsplit := splitOnDot_append payload (sig.set i '.') hpd
      have hlen := two_le_splitOnDot_length _ hmem
      simp only [validateToken, if_neg hrev, hcache, hsplit]
      cases he : splitOnDot (sig.set i '.') with
      | nil => exact absurd he (splitOnDot_ne_nil _)
      | cons s ss =>
        rw [he] at hlen
        cases ss with
        | nil => simp at hlen
        | cons s2 ss2 => rfl
    · have hsd' : '.' ∉ sig.set i c := by
        intro hm
        rcases List.mem_or_eq_of_mem_set hm with h1 | h1
        · exact hsd h1
        · exact hdot h1.symm
      have hsplit : splitOnDot (payload ++ '.' :: sig.set i c) = [payload, sig.set i c] := by
        rw [splitOnDot_append _ _ hpd, splitOnDot_no_dot _ hsd']
      have hne : sig.set i c ≠ signPayload env st.secretKey payload := by
        rw [← hsig]
        intro he
        have h1 : (sig.set i c)[i]? = sig[i]? := by rw [he]
        rw [List.getElem?_set_self hi, List.getElem?_eq_getElem hi] at h1
        exact hc (Option.some.inj h1)
      have hver : verifyPayload env st.secretKey payload (sig.set i c) = false := by
        cases hv : verifyPayload env st.secretKey payload (sig.set i c)
        · rfl
        · exact absurd ((verifyPayload_eq_true_iff _ _ _ _).mp hv) hne
      have hbody : foreignBody env now st (payload ++ '.' :: sig.set i c) payload
          (sig.set i c) = .ok none := by
        simp only [foreignBody, hver, Bool.not_false, if_true]
      simp only [validateToken, if_neg hrev, hcache, hsplit, hbody]

/-- C3 witness: the valid bearer string `"p.kp"` (payload `"p"`, signature
`"kp"` under secret `"k"`) with the first signature character changed to `'x'`
is rejected by a fresh authority. -/
theorem tamper_detection_witness :
    (validateToken env0 0 st0 (['p'] ++ '.' :: (['k', 'p'].set 0 'x'))).1 = none :=
  (tamper_detection env0 0 st0 ['p'] ['k', 'p'] 0 'x' (by decide) (by decide) (by decide)
    (by decide) (by decide) (by decide)).2

theorem validateToken_standalone (env : CryptoEnv) (now : Int) (st : GSNAuthState)
    (f : TokenFields) (payload sig s : Str)
    (hsig : sig = signPayload env st.secretKey payload)
    (hs : s = payload ++ '.' :: sig)
    (hpd : '.' ∉ payload) (hsd : '.' ∉ sig)
    (hdec : env.decodePayload payload = .ok f.toPayloadData)
    (hrev : s ∉ st.revokedTokens) (hcache : mapGet s st.issuedTokens = none)
    (hlo : f.issuedAt ≤ now) (hhi : now ≤ f.expiresAt) :
    (validateToken env now st s).1 = some
      { token := s, agentId := some f.agentId, issuedAt := some f.issuedAt,
        expiresAt := some f.expiresAt, scope := some f.scope } := by
  have hsplit : splitOnDot s = [payload, sig] := by
    rw [hs, splitOnDot_append _ _ hpd, splitOnDot_no_dot _ hsd]
  have hver : verifyPayload env st.secretKey payload sig = true :=
    (verifyPayload_eq_true_iff _ _ _ _).mpr hsig
  have hexp : isTokenExpired now (some f.issuedAt) (some f.expiresAt) = false := by
    simp only [isTokenExpired, jsLt, jsGt, Bool.or_eq_false_iff, decide_eq_false_iff_not]
    omega
  have hbody : foreignBody env now st s payload sig = .ok (some
      { token := s, agentId := some f.agentId, issuedAt := some f.issuedAt,
        expiresAt := some f.expiresAt, scope := some f.scope }) := by
    simp only [foreignBody, hver, Bool.not_true, Bool.false_eq_true, if_false, hdec,
      TokenFields.toPayloadData, hexp]
  rw [validateToken_foreign_path env now st s payload sig hrev hcache hsplit, hbody]

/-- C5: a bearer string minted by authority A and validated within its validity
window is accepted by a distinct authority B constructed with the same secret —
returning a credential with the same agentId, scope, issuedAt and expiresAt as
minted — while an authority C whose different secret yields a different HMAC
over the payload rejects it with null. -/
theorem foreign_verification (env : CryptoEnv) (nowIssue nowVal : Int)
    (A B C : GSNAuthState) (scope : Scope)
    (hpd : '.' ∉ env.encodePayload (mintFields nowIssue A scope))
    (hsd : '.' ∉ signPayload env A.secretKey (env.encodePayload (mintFields nowIssue A scope)))
    (hdec : env.decodePayload (env.encodePayload (mintFields nowIssue A scope)) =
      .ok (mintFields nowIssue A scope).toPayloadData)
    (hBsec : B.secretKey = A.secretKey)
    (hBrev : (generateToken env nowIssue A scope).1.token ∉ B.revokedTokens)
    (hBcache : mapGet (generateToken env nowIssue A scope).1.token B.issuedTokens = none)
    (hlo : nowIssue ≤ nowVal) (hhi : nowVal ≤ nowIssue + A.tokenExpiry * 1000)
    (hCrev : (generateToken env nowIssue A scope).1.token ∉ C.revokedTokens)
    (hCcache : mapGet (generateToken env nowIssue A scope).1.token C.issuedTokens = none)
    (hCsig : signPayload env C.secretKey (env.encodePayload (mintFields nowIssue A scope)) ≠
      signPayload env A.secretKey (env.encodePayload (mintFields nowIssue A scope))) :
    (validateToken env nowVal B (generateToken env nowIssue A scope).1.token).1 =
      some { token := (generateToken env nowIssue A scope).1.token
             agentId := some A.agentIdentity.id
             issuedAt := some nowIssue
             expiresAt := some (nowIssue + A.tokenExpiry * 1000)
             scope := some (scopeToStr scope) } ∧
    (validateToken env nowVal C (generateToken env nowIssue A scope).1.token).1 = none := by
  constructor
  · exact validateToken_standalone env nowVal B (mintFields nowIssue A scope)
      (env.encodePayload (mintFields nowIssue A scope))
      (signPayload env A.secretKey (env.encodePayload (mintFields nowIssue A scope)))
      (generateToken env nowIssue A scope).1.token
      (by rw [hBsec]) rfl hpd hsd hdec hBrev hBcache hlo hhi
  · have hverC : verifyPayload env C.secretKey
        (env.encodePayload (mintFields nowIssue A scope))
        (signPayload env A.secretKey (env.encodePayload (mintFields nowIssue A scope))) =
          false := by
      cases hv : verifyPayload env C.secretKey (env.encodePayload (mintFields nowIssue A scope))
          (signPayload env A.secretKey (env.encodePayload (mintFields nowIssue A scope)))
      · rfl
      · exact absurd ((verifyPayload_eq_true_iff _ _ _ _).mp hv).symm hCsig
    have hsplit : splitOnDot (generateToken env nowIssue A scope).1.token =
        [env.encodePayload (mintFields nowIssue A scope),
         signPayload env A.secretKey (env.encodePayload (mintFields nowIssue A scope))] := by
      rw [show (generateToken env nowIssue A scope).1.token =
        env.encodePayload (mintFields nowIssue A scope) ++ '.' ::
          signPayload env A.secretKey (env.encodePayload (mintFields nowIssue A scope)) from rfl,
        splitOnDot_append _ _ hpd, splitOnDot_no_dot _ hsd]
    have hbody : foreignBody env nowVal C (generateToken env nowIssue A scope).1.token
        (env.encodePayload (mintFields nowIssue A scope))
        (signPayload env A.secretKey (env.encodePayload (mintFields nowIssue A scope))) =
          .ok none := by
      simp only [foreignBody, hverC, Bool.not_false, if_true]
    rw [validateToken_foreign_path env nowVal C _ _ _ hCrev hCcache hsplit, hbody]

/-- C5 witness: the read token minted by `st0` (secret `"k"`) at `now = 0` is
accepted at `now = 500` by the fresh authority `stB` (same secret) and rejected
by `stC` (secret `"c"`). -/
theorem foreign_verification_witness :
    (validateToken env0 500 stB (generateToken env0 0 st0 .read).1.token).1 =
      some { token := (generateToken env0 0 st0 .read).1.token
             agentId := some st0.agentIdentity.id
             issuedAt := some 0
             expiresAt := some (0 + st0.tokenExpiry * 1000)
             scope := some (scopeToStr .read) } ∧
    (validateToken env0 500 stC (generateToken env0 0 st0 .read).1.token).1 = none :=
  foreign_verification env0 0 500 st0 stB stC .read (by decide) (by decide) (by rfl)
    (by rfl) (by decide) (by rfl) (by decide) (by decide) (by decide) (by rfl) (by decide)

/-- C6 counterexample: the bearer string `"q.kq"` carries a valid signature
(HMAC of payload `"q"` under secret `"k"`) and its payload decodes to a JSON
object with none of the required fields, yet `validateToken` does NOT return
null: it returns a credential whose `agentId`, `issuedAt`, `expiresAt` and
`scope` are all undefined — refuting the claim that such strings are rejected. -/
theorem missing_fields_counterexample :
    (validateToken env0 0 st0 ('q' :: '.' :: 'k' :: 'q' :: [])).1 =
      some { token := ['q', '.', 'k', 'q'], agentId := none, issuedAt := none,
             expiresAt := none, scope := none } ∧
    (validateToken env0 0 st0 ('q' :: '.' :: 'k' :: 'q' :: [])).1 ≠ none :=
  ⟨by decide, by decide⟩

/-- C6 amended: a bearer string whose payload carries a valid signature but
decodes to JSON missing the required timestamp fields is NOT rejected:
`validateToken` returns a non-null credential carrying the missing fields as
undefined, because `isTokenExpired` treats undefined timestamps as not expired
(JS comparisons with undefined are false); such strings are rejected only by
the revocation, cache, split, signature-mismatch, or decode-throw checks. -/
theorem missing_fields_passthrough (env : CryptoEnv) (now : Int) (st : GSNAuthState)
    (payload sig s : Str) (pd : PayloadData)
    (hsig : sig = signPayload env st.secretKey payload)
    (hs : s = payload ++ '.' :: sig)
    (hpd : '.' ∉ payload) (hsd : '.' ∉ sig)
    (hrev : s ∉ st.revokedTokens) (hcache : mapGet s st.issuedTokens = none)
    (hdec : env.decodePayload payload = .ok pd)
    (hia : pd.issuedAt = none) (hea : pd.expiresAt = none) :
    (validateToken env now st s).1 =
      some { token := s, agentId := pd.agentId, issuedAt := none,
             expiresAt := none, scope := pd.scope } := by
  have hsplit : splitOnDot s = [payload, sig] := by
    rw [hs, splitOnDot_append _ _ hpd, splitOnDot_no_dot _ hsd]
  have hver : verifyPayload env st.secretKey payload sig = true :=
    (verifyPayload_eq_true_iff _ _ _ _).mpr hsig
  have hexp : isTokenExpired now pd.issuedAt pd.expiresAt = false := by
    rw [hia, hea]; rfl
  have hbody : foreignBody env now st s payload sig = .ok (some
      { token := s, agentId := pd.agentId, issuedAt := pd.issuedAt,
        expiresAt := pd.expiresAt, scope := pd.scope }) := by
    simp only [foreignBody, hver, Bool.not_true, Bool.false_eq_true, if_false, hdec, hexp]
  rw [validateToken_foreign_path env now st s payload sig hrev hcache hsplit, hbody, hia, hea]

/-- C6 amended witness: `"q.kq"` (signed payload decoding to an empty JSON
object) evaluated at `now = 5` on the fresh authority. -/
theorem missing_fields_passthrough_witness :
    (validateToken env0 5 st0 ('q' :: '.' :: 'k' :: 'q' :: [])).1 =
      some { token := ['q', '.', 'k', 'q'], agentId := none, issuedAt := none,
             expiresAt := none, scope := none } :=
  missing_fields_passthrough env0 5 st0 ['q'] ['k', 'q'] ['q', '.', 'k', 'q']
    ⟨none, none, none, none⟩ (by rfl) (by rfl) (by decide) (by decide) (by decide)
    (by rfl) (by rfl) (by rfl) (by rfl)

/-- C7: `validateToken` is total on arbitrary input strings: it always returns
either a credential or null, and on the foreign path the catch converts every
thrown decode fault into a null result while every normally computed result is
returned as-is — no fault escapes to the caller. -/
theorem validateToken_total (env : CryptoEnv) (now : Int) (st : GSNAuthState)
    (s payload sig : Str)
    (hrev : s ∉ st.revokedTokens) (hcache : mapGet s st.issuedTokens = none)
    (hsplit : splitOnDot s = [payload, sig]) :
    ((validateToken env now st s).1 = none ∨
      ∃ t : AuthToken, (validateToken env now st s).1 = some t) ∧
    (∀ e : Unit, foreignBody env now st s payload sig = .error e →
      (validateToken env now st s).1 = none) ∧
    (∀ r : Option AuthToken, foreignBody env now st s payload sig = .ok r →
      (validateToken env now st s).1 = r) := by
  refine ⟨?_, ?_, ?_⟩
  · cases h : (validateToken env now st s).1
    · exact Or.inl rfl
    · exact Or.inr ⟨_, rfl⟩
  · intro e he
    rw [validateToken_foreign_path env now st s payload sig hrev hcache hsplit, he]
  · intro r hr
    rw [validateToken_foreign_path env now st s payload sig hrev hcache hsplit, hr]

/-- C7 witness: `"r.kr"` carries a valid signature but its payload `"r"` makes
the decoder throw; the fault is caught and `validateToken` returns null. -/
theorem validateToken_total_witness :
    (validateToken env0 0 st0 ('r' :: '.' :: 'k' :: 'r' :: [])).1 = none :=
  (validateToken_total env0 0 st0 ['r', '.', 'k', 'r'] ['r'] ['k', 'r']
    (by decide) (by rfl) (by rfl)).2.1 () (by rfl)

/-- C10: `dispose()` empties both `issuedTokens` and `revokedTokens`; on the
reachable state built by issuing a read token at `now = 0` and revoking its
bearer string, that string — still inside its validity window and validly
signed under the authority's secret — is rejected before `dispose()` and
accepted again after `dispose()` via the standalone-verification path:
revocation does not survive dispose on a still-usable instance. -/
theorem dispose_forgets_revocation :
    (∀ st : GSNAuthState, (dispose st).issuedTokens = [] ∧ (dispose st).revokedTokens = []) ∧
    (validateToken env0 0 (revokeToken (generateToken env0 0 st0 .read).2
        (generateToken env0 0 st0 .read).1.token).2
        (generateToken env0 0 st0 .read).1.token).1 = none ∧
    (validateToken env0 0 (dispose (revokeToken (generateToken env0 0 st0 .read).2
        (generateToken env0 0 st0 .read).1.token).2)
        (generateToken env0 0 st0 .read).1.token).1 =
      some { token := (generateToken env0 0 st0 .read).1.token
             agentId := some ['a']
             issuedAt := some 0
             expiresAt := some 1000
             scope := some "read".data } :=
  ⟨fun st => ⟨rfl, rfl⟩, by decide, by decide⟩

end GSN
